import Mathlib

/-!
Verification of the FOEDUS core excerpt: the PageVersion 64-bit version word
(foedus/storage/page.hpp), thread-id composition (foedus/thread/thread_id.hpp),
FixedString (foedus/assorted/fixed_string.hpp) and the array-storage factory
(foedus/storage/array/array_storage.cpp).

Machine words are shallowly embedded as `Nat`; every operation mirrors the
C++ statement by statement, with `% 2^w` inserted exactly where the C++ type
system truncates (uint8_t parameters and so on).
-/

/-! ## Constants of the PageVersion bit layout (page.hpp lines 41-61) -/

def kPageVersionLockedBit : Nat := 1 <<< 63

def kPageVersionInsertingBit : Nat := 1 <<< 62

def kPageVersionSplittingBit : Nat := 1 <<< 61

def kPageVersionDeletedBit : Nat := 1 <<< 60

def kPageVersionHasFosterChildBit : Nat := 1 <<< 59

def kPageVersionIsBorderBit : Nat := 1 <<< 58

def kPageVersionIsSupremumBit : Nat := 1 <<< 57

def kPageVersionInsertionCounterMask : Nat := 0x01F8000000000000

def kPageVersionInsertionCounterShifts : Nat := 51

def kPageVersionSplitCounterMask : Nat := 0x0007FFFE00000000

def kPageVersionSplitCounterShifts : Nat := 33

def kPageVersionKeyCountMask : Nat := 0xFFFF0000

def kPageVersionKeyCountShifts : Nat := 16

def kPageVersionLayerMask : Nat := 0x0000FF00

def kPageVersionLayerShifts : Nat := 8

/-- page.hpp lines 57-61: the bits preserved across an unlock. -/
def kPageVersionUnlockMask : Nat :=
  kPageVersionHasFosterChildBit |||
  kPageVersionIsBorderBit |||
  kPageVersionKeyCountMask |||
  kPageVersionLayerMask

/-! ## PageVersion getters (page.hpp lines 116-136).
The `data` argument is the 64-bit `data_` member. -/

def is_locked (data : Nat) : Bool := data &&& kPageVersionLockedBit != 0

def is_inserting (data : Nat) : Bool := data &&& kPageVersionInsertingBit != 0

def is_splitting (data : Nat) : Bool := data &&& kPageVersionSplittingBit != 0

def is_deleted (data : Nat) : Bool := data &&& kPageVersionDeletedBit != 0

def has_foster_child (data : Nat) : Bool := data &&& kPageVersionHasFosterChildBit != 0

def is_border (data : Nat) : Bool := data &&& kPageVersionIsBorderBit != 0

def is_high_fence_supremum (data : Nat) : Bool := data &&& kPageVersionIsSupremumBit != 0

def get_insert_counter (data : Nat) : Nat :=
  (data &&& kPageVersionInsertionCounterMask) >>> kPageVersionInsertionCounterShifts

def get_split_counter (data : Nat) : Nat :=
  (data &&& kPageVersionSplitCounterMask) >>> kPageVersionSplitCounterShifts

def get_key_count (data : Nat) : Nat :=
  (data &&& kPageVersionKeyCountMask) >>> kPageVersionKeyCountShifts

def get_layer (data : Nat) : Nat :=
  (data &&& kPageVersionLayerMask) >>> kPageVersionLayerShifts

/-- PageVersion::initialize (page.hpp lines 92-112); the layer parameter is
uint8_t, modelled by `% 256`. Builds `data_` from zero by or-ing bits in the
source's order. -/
def initialize_version (locked has_foster has_border has_supremum : Bool)
    (layer : Nat) : Nat :=
  let data0 : Nat := 0
  let data1 := if locked then data0 ||| kPageVersionLockedBit else data0
  let data2 := if has_foster then data1 ||| kPageVersionHasFosterChildBit else data1
  let data3 := if has_border then data2 ||| kPageVersionIsBorderBit else data2
  let data4 := if has_supremum then data3 ||| kPageVersionIsSupremumBit else data3
  data4 ||| ((layer % 256) <<< kPageVersionLayerShifts)

/-- The 64-bit value of `~static_cast<uint64_t>(kPageVersionKeyCountMask)`
used by PageVersion::set_key_count (page.hpp line 152). -/
def kPageVersionKeyCountMaskCompl : Nat := 0xFFFFFFFF0000FFFF

/-- PageVersion::set_key_count (page.hpp lines 150-155); the key_count
parameter is uint8_t, modelled by `% 256`. -/
def set_key_count (data key_count : Nat) : Nat :=
  (data &&& kPageVersionKeyCountMaskCompl) |||
  ((key_count % 256) <<< kPageVersionKeyCountShifts)

/-- PageVersion::unlock_version (page.hpp lines 398-414): the value stored
back into `data_`. The sums cannot exceed 2^64, so no truncation is needed. -/
def unlock_version (data : Nat) : Nat :=
  let page_version := data
  let base := page_version &&& kPageVersionUnlockMask
  let insertion_counter0 := page_version &&& kPageVersionInsertionCounterMask
  let insertion_counter :=
    if page_version &&& kPageVersionInsertingBit != 0 then
      insertion_counter0 + (1 <<< kPageVersionInsertionCounterShifts)
    else
      insertion_counter0
  let split_counter0 := page_version &&& kPageVersionSplitCounterMask
  let split_counter :=
    if page_version &&& kPageVersionSplittingBit != 0 then
      split_counter0 + (1 <<< kPageVersionSplitCounterShifts)
    else
      split_counter0
  base ||| insertion_counter ||| split_counter

/-- The condition of `ASSERT_ND((insertion_counter & split_counter) == 0)`
inside PageVersion::unlock_version (page.hpp line 410), computed on the same
intermediate values as `unlock_version`. -/
def unlock_version_check (data : Nat) : Bool :=
  let page_version := data
  let insertion_counter0 := page_version &&& kPageVersionInsertionCounterMask
  let insertion_counter :=
    if page_version &&& kPageVersionInsertingBit != 0 then
      insertion_counter0 + (1 <<< kPageVersionInsertionCounterShifts)
    else
      insertion_counter0
  let split_counter0 := page_version &&& kPageVersionSplitCounterMask
  let split_counter :=
    if page_version &&& kPageVersionSplittingBit != 0 then
      split_counter0 + (1 <<< kPageVersionSplitCounterShifts)
    else
      split_counter0
  (insertion_counter &&& split_counter) == 0

/-- PageVersion::stable_version (page.hpp lines 372-382): the spin loop reads
`data_` repeatedly; we model the successively observed words as a list and
return the first observation with neither inserting nor splitting set
(exactly the loop's exit test), or none if every observation fails it. -/
def stable_version (observed : List Nat) : Option Nat :=
  observed.find? (fun ver =>
    (ver &&& (kPageVersionInsertingBit ||| kPageVersionSplittingBit)) == 0)

/-- Word built from a full field assignment with the source's bit constants
(the layout documented at page.hpp lines 63-86); used to state the spec's T2
round-trip property. Counter and count fields are truncated to their widths. -/
def page_version_word (locked inserting splitting deleted has_foster
    has_border has_supremum : Bool)
    (insert_counter split_counter key_count layer : Nat) : Nat :=
  (if locked then kPageVersionLockedBit else 0) |||
  (if inserting then kPageVersionInsertingBit else 0) |||
  (if splitting then kPageVersionSplittingBit else 0) |||
  (if deleted then kPageVersionDeletedBit else 0) |||
  (if has_foster then kPageVersionHasFosterChildBit else 0) |||
  (if has_border then kPageVersionIsBorderBit else 0) |||
  (if has_supremum then kPageVersionIsSupremumBit else 0) |||
  ((insert_counter % 64) <<< kPageVersionInsertionCounterShifts) |||
  ((split_counter % 262144) <<< kPageVersionSplitCounterShifts) |||
  ((key_count % 65536) <<< kPageVersionKeyCountShifts) |||
  ((layer % 256) <<< kPageVersionLayerShifts)

/-! ## Thread identity (thread_id.hpp lines 82-100).
ThreadGroupId and ThreadLocalOrdinal are uint8_t, ThreadId is uint16_t;
the parameter types are modelled by the corresponding `%`. -/

def compose_thread_id (node local_core : Nat) : Nat :=
  ((node % 256) <<< 8) ||| (local_core % 256)

def decompose_numa_node (global_id : Nat) : Nat :=
  ((global_id % 65536) >>> 8) &&& 0xFF

def decompose_numa_local_ordinal (global_id : Nat) : Nat :=
  (global_id % 65536) &&& 0xFF

/-! ## FixedString (fixed_string.hpp).
`data_` models the defined content of the fixed array: exactly the characters
written by the last memcpy (the C++ leaves the tail undefined). -/

structure FixedString (MAXLEN : Nat) (CHAR : Type) where
  length_ : Nat
  data_ : List CHAR

/-- FixedString::assign(const std::basic_string&) (fixed_string.hpp lines
131-134): truncating length computation, then memcpy of length_ characters. -/
def fixed_assign_str (MAXLEN : Nat) {CHAR : Type} (str : List CHAR) :
    FixedString MAXLEN CHAR :=
  let len := if str.length > MAXLEN then MAXLEN else str.length
  ⟨len, str.take len⟩

/-- FixedString::assign(const FixedString<MAXLEN2>&) (fixed_string.hpp lines
125-129). -/
def fixed_assign_fs (MAXLEN : Nat) {MAXLEN2 : Nat} {CHAR : Type}
    (other : FixedString MAXLEN2 CHAR) : FixedString MAXLEN CHAR :=
  let len := if other.length_ > MAXLEN then MAXLEN else other.length_
  ⟨len, other.data_.take len⟩

/-- FixedString::assign(const CHAR*, uint32_t) (fixed_string.hpp lines
137-140): the length argument is given separately from the data. -/
def fixed_assign_cstr (MAXLEN : Nat) {CHAR : Type} (str : List CHAR)
    (len : Nat) : FixedString MAXLEN CHAR :=
  let l := if len > MAXLEN then MAXLEN else len
  ⟨l, str.take l⟩

/-- FixedString default constructor (fixed_string.hpp line 55): length_ = 0. -/
def fixed_empty (MAXLEN : Nat) (CHAR : Type) : FixedString MAXLEN CHAR :=
  ⟨0, []⟩

/-- FixedString::clear (fixed_string.hpp line 153): sets length_ = 0, so the
defined content becomes empty. -/
def fixed_clear {MAXLEN : Nat} {CHAR : Type} (fs : FixedString MAXLEN CHAR) :
    FixedString MAXLEN CHAR :=
  ⟨0, []⟩

/-! ## ArrayStorageFactory::get_instance (array_storage.cpp lines 59-79). -/

/-- The metadata argument: either an ArrayMetadata (its dynamic_cast
succeeds) or a metadata of some other storage type (the cast yields null). -/
inductive Metadata : Type where
  | arrayMetadata (id payload_size array_size : Nat) : Metadata
  | otherMetadata : Metadata

/-- The two error codes get_instance can raise, plus none for success. -/
inductive FactoryError : Type where
  | kErrorCodeStrWrongMetadataType : FactoryError
  | kErrorCodeStrArrayInvalidOption : FactoryError
deriving DecidableEq

/-- The ArrayStorage the factory constructs, carrying the validated
metadata. -/
structure ArrayStorage where
  id : Nat
  payload_size : Nat
  array_size : Nat
deriving DecidableEq

/-- Result of get_instance: an ERROR_STACK or the storage written to
`*storage` followed by kRetOk. -/
inductive FactoryResult : Type where
  | errorStack (code : FactoryError) : FactoryResult
  | ok (storage : ArrayStorage) : FactoryResult
deriving DecidableEq

/-- ArrayStorageFactory::get_instance (array_storage.cpp lines 59-79). -/
def get_instance (metadata : Metadata) : FactoryResult :=
  match metadata with
  | Metadata.otherMetadata =>
    FactoryResult.errorStack FactoryError.kErrorCodeStrWrongMetadataType
  | Metadata.arrayMetadata id payload_size array_size =>
    if payload_size = 0 then
      FactoryResult.errorStack FactoryError.kErrorCodeStrArrayInvalidOption
    else if array_size = 0 then
      FactoryResult.errorStack FactoryError.kErrorCodeStrArrayInvalidOption
    else
      FactoryResult.ok ⟨id, payload_size, array_size⟩

/-! ## Bit-manipulation toolkit -/

/-- Or of values with disjoint bit ranges is addition. -/
theorem lor_disjoint (k a b : Nat) (ha : a % 2 ^ k = 0) (hb : b < 2 ^ k) :
    a ||| b = a + b := by
  obtain ⟨c, hc⟩ : ∃ c, a = 2 ^ k * c :=
    ⟨a / 2 ^ k, (Nat.mul_div_cancel' (Nat.dvd_of_mod_eq_zero ha)).symm⟩
  subst hc
  exact (Nat.mul_add_lt_is_or hb c).symm

/-- Shifting distributes over or. -/
theorem lor_mul_two_pow (k a b : Nat) :
    (a * 2 ^ k) ||| (b * 2 ^ k) = (a ||| b) * 2 ^ k := by
  apply Nat.eq_of_testBit_eq
  intro i
  rw [← Nat.shiftLeft_eq, ← Nat.shiftLeft_eq, ← Nat.shiftLeft_eq]
  simp only [Nat.testBit_or, Nat.testBit_shiftLeft, Bool.and_or_distrib_left]

/-- Extracting a contiguous w-bit field at position s. -/
theorem and_mask_eq (x s w : Nat) :
    x &&& ((2 ^ w - 1) <<< s) = (x / 2 ^ s % 2 ^ w) * 2 ^ s := by
  apply Nat.eq_of_testBit_eq
  intro i
  rw [← Nat.shiftLeft_eq, ← Nat.shiftRight_eq_div_pow]
  simp only [Nat.testBit_and, Nat.testBit_shiftLeft, Nat.testBit_shiftRight,
    Nat.testBit_mod_two_pow, Nat.testBit_two_pow_sub_one]
  by_cases h : s ≤ i
  · have h2 : s + (i - s) = i := by omega
    simp [h, h2]
    cases x.testBit i <;> simp [Bool.and_comm]
  · simp [h]

/-- Extracting a single bit at position k. -/
theorem and_bit_eq (x k : Nat) :
    x &&& (1 <<< k) = (x / 2 ^ k % 2) * 2 ^ k := by
  have h1 : (1 : Nat) = 2 ^ 1 - 1 := rfl
  rw [h1, and_mask_eq]
  norm_num

/-- Boolean test of a single bit at position k. -/
theorem and_bit_ne (x k : Nat) :
    (x &&& (1 <<< k) != 0) = decide (x / 2 ^ k % 2 = 1) := by
  rw [and_bit_eq]
  have h : x / 2 ^ k % 2 = 0 ∨ x / 2 ^ k % 2 = 1 := by omega
  have hp : 0 < 2 ^ k := Nat.pos_pow_of_pos k (by omega)
  rcases h with h | h <;> simp [h, Nat.ne_of_gt hp]

/-! ## The masks as shifted contiguous fields -/

theorem insertion_counter_mask_shl :
    kPageVersionInsertionCounterMask = (2 ^ 6 - 1) <<< 51 := by decide

theorem split_counter_mask_shl :
    kPageVersionSplitCounterMask = (2 ^ 18 - 1) <<< 33 := by decide

theorem key_count_mask_shl :
    kPageVersionKeyCountMask = (2 ^ 16 - 1) <<< 16 := by decide

theorem layer_mask_shl :
    kPageVersionLayerMask = (2 ^ 8 - 1) <<< 8 := by decide

/-! ## Arithmetic characterizations of the getters -/

theorem is_locked_eq (x : Nat) :
    is_locked x = decide (x / 2 ^ 63 % 2 = 1) := by
  simp only [is_locked, kPageVersionLockedBit, and_bit_ne]

theorem is_inserting_eq (x : Nat) :
    is_inserting x = decide (x / 2 ^ 62 % 2 = 1) := by
  simp only [is_inserting, kPageVersionInsertingBit, and_bit_ne]

theorem is_splitting_eq (x : Nat) :
    is_splitting x = decide (x / 2 ^ 61 % 2 = 1) := by
  simp only [is_splitting, kPageVersionSplittingBit, and_bit_ne]

theorem is_deleted_eq (x : Nat) :
    is_deleted x = decide (x / 2 ^ 60 % 2 = 1) := by
  simp only [is_deleted, kPageVersionDeletedBit, and_bit_ne]

theorem has_foster_child_eq (x : Nat) :
    has_foster_child x = decide (x / 2 ^ 59 % 2 = 1) := by
  simp only [has_foster_child, kPageVersionHasFosterChildBit, and_bit_ne]

theorem is_border_eq (x : Nat) :
    is_border x = decide (x / 2 ^ 58 % 2 = 1) := by
  simp only [is_border, kPageVersionIsBorderBit, and_bit_ne]

theorem is_high_fence_supremum_eq (x : Nat) :
    is_high_fence_supremum x = decide (x / 2 ^ 57 % 2 = 1) := by
  simp only [is_high_fence_supremum, kPageVersionIsSupremumBit, and_bit_ne]

theorem get_insert_counter_eq (x : Nat) :
    get_insert_counter x = x / 2 ^ 51 % 64 := by
  simp only [get_insert_counter, kPageVersionInsertionCounterShifts]
  rw [insertion_counter_mask_shl, and_mask_eq, Nat.shiftRight_eq_div_pow]
  omega

theorem get_split_counter_eq (x : Nat) :
    get_split_counter x = x / 2 ^ 33 % 262144 := by
  simp only [get_split_counter, kPageVersionSplitCounterShifts]
  rw [split_counter_mask_shl, and_mask_eq, Nat.shiftRight_eq_div_pow]
  omega

theorem get_key_count_eq (x : Nat) :
    get_key_count x = x / 2 ^ 16 % 65536 := by
  simp only [get_key_count, kPageVersionKeyCountShifts]
  rw [key_count_mask_shl, and_mask_eq, Nat.shiftRight_eq_div_pow]
  omega

theorem get_layer_eq (x : Nat) :
    get_layer x = x / 2 ^ 8 % 256 := by
  simp only [get_layer, kPageVersionLayerShifts]
  rw [layer_mask_shl, and_mask_eq, Nat.shiftRight_eq_div_pow]
  omega

/-! ## Helper lemmas for Bool-controlled bits -/

theorem toNat_le_one (b : Bool) : b.toNat ≤ 1 := by cases b <;> simp

theorem or_ite_bit (b : Bool) (x v : Nat) :
    (if b then x ||| v else x) = x ||| b.toNat * v := by
  cases b <;> simp

theorem ite_bit (b : Bool) (v : Nat) :
    (if b then v else 0) = b.toNat * v := by
  cases b <;> simp

/-! ## Arithmetic form of initialize -/

theorem initialize_version_eq (locked has_foster has_border has_supremum : Bool)
    (layer : Nat) :
    initialize_version locked has_foster has_border has_supremum layer =
      locked.toNat * 2 ^ 63 + has_foster.toNat * 2 ^ 59 +
      has_border.toNat * 2 ^ 58 + has_supremum.toNat * 2 ^ 57 +
      (layer % 256) * 2 ^ 8 := by
  have h1 := toNat_le_one locked
  have h2 := toNat_le_one has_foster
  have h3 := toNat_le_one has_border
  have h4 := toNat_le_one has_supremum
  simp only [initialize_version, kPageVersionLockedBit,
    kPageVersionHasFosterChildBit, kPageVersionIsBorderBit,
    kPageVersionIsSupremumBit, kPageVersionLayerShifts, or_ite_bit, ite_bit,
    Nat.zero_or, Nat.shiftLeft_eq, Nat.one_mul]
  rw [lor_disjoint 60 (locked.toNat * 2 ^ 63) (has_foster.toNat * 2 ^ 59)
    (by omega) (by omega)]
  rw [lor_disjoint 59 (locked.toNat * 2 ^ 63 + has_foster.toNat * 2 ^ 59)
    (has_border.toNat * 2 ^ 58) (by omega) (by omega)]
  rw [lor_disjoint 58
    (locked.toNat * 2 ^ 63 + has_foster.toNat * 2 ^ 59 +
      has_border.toNat * 2 ^ 58)
    (has_supremum.toNat * 2 ^ 57) (by omega) (by omega)]
  rw [lor_disjoint 16
    (locked.toNat * 2 ^ 63 + has_foster.toNat * 2 ^ 59 +
      has_border.toNat * 2 ^ 58 + has_supremum.toNat * 2 ^ 57)
    ((layer % 256) * 2 ^ 8) (by omega) (by omega)]

/-! ## Arithmetic form of the full word constructor -/

theorem page_version_word_eq (locked inserting splitting deleted has_foster
    has_border has_supremum : Bool) (ic sc kc ly : Nat) :
    page_version_word locked inserting splitting deleted has_foster has_border
        has_supremum ic sc kc ly =
      locked.toNat * 2 ^ 63 + inserting.toNat * 2 ^ 62 +
      splitting.toNat * 2 ^ 61 + deleted.toNat * 2 ^ 60 +
      has_foster.toNat * 2 ^ 59 + has_border.toNat * 2 ^ 58 +
      has_supremum.toNat * 2 ^ 57 + ic % 64 * 2 ^ 51 +
      sc % 262144 * 2 ^ 33 + kc % 65536 * 2 ^ 16 + ly % 256 * 2 ^ 8 := by
  have h1 := toNat_le_one locked
  have h2 := toNat_le_one inserting
  have h3 := toNat_le_one splitting
  have h4 := toNat_le_one deleted
  have h5 := toNat_le_one has_foster
  have h6 := toNat_le_one has_border
  have h7 := toNat_le_one has_supremum
  simp only [page_version_word, ite_bit, kPageVersionLockedBit,
    kPageVersionInsertingBit, kPageVersionSplittingBit, kPageVersionDeletedBit,
    kPageVersionHasFosterChildBit, kPageVersionIsBorderBit,
    kPageVersionIsSupremumBit, kPageVersionInsertionCounterShifts,
    kPageVersionSplitCounterShifts, kPageVersionKeyCountShifts,
    kPageVersionLayerShifts, Nat.shiftLeft_eq, Nat.one_mul]
  set a := locked.toNat * 2 ^ 63 with ha
  set b := inserting.toNat * 2 ^ 62 with hb
  set c := splitting.toNat * 2 ^ 61 with hc
  set d := deleted.toNat * 2 ^ 60 with hd
  set e := has_foster.toNat * 2 ^ 59 with he
  set f := has_border.toNat * 2 ^ 58 with hf
  set g := has_supremum.toNat * 2 ^ 57 with hg
  set i := ic % 64 * 2 ^ 51 with hi
  set s := sc % 262144 * 2 ^ 33 with hs
  set k := kc % 65536 * 2 ^ 16 with hk
  set l := ly % 256 * 2 ^ 8 with hl
  rw [lor_disjoint 63 a b (by omega) (by omega)]
  rw [lor_disjoint 62 (a + b) c (by omega) (by omega)]
  rw [lor_disjoint 61 (a + b + c) d (by omega) (by omega)]
  rw [lor_disjoint 60 (a + b + c + d) e (by omega) (by omega)]
  rw [lor_disjoint 59 (a + b + c + d + e) f (by omega) (by omega)]
  rw [lor_disjoint 58 (a + b + c + d + e + f) g (by omega) (by omega)]
  rw [lor_disjoint 57 (a + b + c + d + e + f + g) i (by omega) (by omega)]
  rw [lor_disjoint 51 (a + b + c + d + e + f + g + i) s (by omega) (by omega)]
  rw [lor_disjoint 32 (a + b + c + d + e + f + g + i + s) k
    (by omega) (by omega)]
  rw [lor_disjoint 16 (a + b + c + d + e + f + g + i + s + k) l
    (by omega) (by omega)]

/-- A conditional counter bump as a linear expression. -/
theorem ite_bump (cond : Nat) (hc : cond ≤ 1) (base add : Nat) :
    (if cond = 1 then base + add else base) = base + cond * add := by
  rcases Nat.le_one_iff_eq_zero_or_eq_one.mp hc with h | h <;> simp [h]

/-- Arithmetic form of unlock_version, for an arbitrary word.  The two bumped
counter words keep their or because their bit ranges can overlap at bit 51
when the split counter wraps. -/
theorem unlock_version_eq (x : Nat) :
    unlock_version x =
      x / 2 ^ 59 % 2 * 2 ^ 59 + x / 2 ^ 58 % 2 * 2 ^ 58 +
      ((x / 2 ^ 51 % 2 ^ 6 + x / 2 ^ 62 % 2) * 2 ^ 51 |||
        (x / 2 ^ 33 % 2 ^ 18 + x / 2 ^ 61 % 2) * 2 ^ 33) +
      x / 2 ^ 16 % 2 ^ 16 * 2 ^ 16 + x / 2 ^ 8 % 2 ^ 8 * 2 ^ 8 := by
  simp only [unlock_version, kPageVersionInsertingBit, kPageVersionSplittingBit,
    kPageVersionInsertionCounterShifts, kPageVersionSplitCounterShifts,
    insertion_counter_mask_shl, split_counter_mask_shl, and_mask_eq,
    and_bit_ne, decide_eq_true_eq]
  simp only [Nat.shiftLeft_eq, Nat.one_mul]
  rw [ite_bump (x / 2 ^ 62 % 2) (by omega) (x / 2 ^ 51 % 2 ^ 6 * 2 ^ 51)
    (2 ^ 51)]
  rw [ite_bump (x / 2 ^ 61 % 2) (by omega) (x / 2 ^ 33 % 2 ^ 18 * 2 ^ 33)
    (2 ^ 33)]
  have hIeq : x / 2 ^ 51 % 2 ^ 6 * 2 ^ 51 + x / 2 ^ 62 % 2 * 2 ^ 51 =
      (x / 2 ^ 51 % 2 ^ 6 + x / 2 ^ 62 % 2) * 2 ^ 51 := by ring
  have hSeq : x / 2 ^ 33 % 2 ^ 18 * 2 ^ 33 + x / 2 ^ 61 % 2 * 2 ^ 33 =
      (x / 2 ^ 33 % 2 ^ 18 + x / 2 ^ 61 % 2) * 2 ^ 33 := by ring
  rw [hIeq, hSeq]
  have hbase : x &&& kPageVersionUnlockMask =
      ((x / 2 ^ 59 % 2 * 2 ^ 59 ||| x / 2 ^ 58 % 2 * 2 ^ 58) |||
        x / 2 ^ 16 % 2 ^ 16 * 2 ^ 16) ||| x / 2 ^ 8 % 2 ^ 8 * 2 ^ 8 := by
    simp only [kPageVersionUnlockMask, kPageVersionHasFosterChildBit,
      kPageVersionIsBorderBit]
    rw [key_count_mask_shl, layer_mask_shl]
    simp only [Nat.and_or_distrib_left]
    rw [and_bit_eq x 59, and_bit_eq x 58, and_mask_eq x 16 16,
      and_mask_eq x 8 8]
  rw [hbase]
  set A := x / 2 ^ 59 % 2 * 2 ^ 59 with hA
  set B := x / 2 ^ 58 % 2 * 2 ^ 58 with hB
  set K := x / 2 ^ 16 % 2 ^ 16 * 2 ^ 16 with hK
  set L := x / 2 ^ 8 % 2 ^ 8 * 2 ^ 8 with hL
  set I := (x / 2 ^ 51 % 2 ^ 6 + x / 2 ^ 62 % 2) * 2 ^ 51 with hI
  set S := (x / 2 ^ 33 % 2 ^ 18 + x / 2 ^ 61 % 2) * 2 ^ 33 with hS
  rw [Nat.or_assoc (((A ||| B) ||| K) ||| L) I S]
  set M := I ||| S with hM
  have hM32 : M % 2 ^ 32 = 0 := by
    have hI32 : I = (x / 2 ^ 51 % 2 ^ 6 + x / 2 ^ 62 % 2) * 2 ^ 19 * 2 ^ 32 := by
      rw [hI]; ring
    have hS32 : S = (x / 2 ^ 33 % 2 ^ 18 + x / 2 ^ 61 % 2) * 2 * 2 ^ 32 := by
      rw [hS]; ring
    rw [hM, hI32, hS32, lor_mul_two_pow]
    omega
  have hM58 : M < 2 ^ 58 := by
    rw [hM]
    exact Nat.or_lt_two_pow (by omega) (by omega)
  rw [Nat.or_assoc ((A ||| B) ||| K) L M]
  rw [Nat.or_comm L M]
  rw [Nat.or_assoc (A ||| B) K (M ||| L)]
  rw [← Nat.or_assoc K M L]
  rw [Nat.or_comm K M]
  rw [lor_disjoint 32 M K hM32 (by omega)]
  rw [lor_disjoint 16 (M + K) L (by omega) (by omega)]
  rw [lor_disjoint 59 A B (by omega) (by omega)]
  rw [lor_disjoint 58 (A + B) (M + K + L) (by omega) (by omega)]
  omega

/-- Arithmetic form of unlock_version when the split counter does not wrap:
the two bumped counter words are then bit-disjoint and the or is a sum. -/
theorem unlock_version_eq_no_split_wrap (x : Nat)
    (h : x / 2 ^ 61 % 2 = 1 → x / 2 ^ 33 % 2 ^ 18 ≠ 2 ^ 18 - 1) :
    unlock_version x =
      x / 2 ^ 59 % 2 * 2 ^ 59 + x / 2 ^ 58 % 2 * 2 ^ 58 +
      (x / 2 ^ 51 % 2 ^ 6 + x / 2 ^ 62 % 2) * 2 ^ 51 +
      (x / 2 ^ 33 % 2 ^ 18 + x / 2 ^ 61 % 2) * 2 ^ 33 +
      x / 2 ^ 16 % 2 ^ 16 * 2 ^ 16 + x / 2 ^ 8 % 2 ^ 8 * 2 ^ 8 := by
  rw [unlock_version_eq]
  have hs : (x / 2 ^ 33 % 2 ^ 18 + x / 2 ^ 61 % 2) * 2 ^ 33 < 2 ^ 51 := by
    by_cases h61 : x / 2 ^ 61 % 2 = 1
    · have := h h61
      omega
    · omega
  rw [lor_disjoint 51 ((x / 2 ^ 51 % 2 ^ 6 + x / 2 ^ 62 % 2) * 2 ^ 51)
    ((x / 2 ^ 33 % 2 ^ 18 + x / 2 ^ 61 % 2) * 2 ^ 33) (by omega) hs]
  omega

/-- Arithmetic form of unlock_version when the split counter wraps and the
bumped insertion-counter word is even: the carry of the split counter lands
on bit 51, adding 1 to the insertion counter field. -/
theorem unlock_version_eq_split_wrap (x : Nat)
    (h61 : x / 2 ^ 61 % 2 = 1) (hsc : x / 2 ^ 33 % 2 ^ 18 = 2 ^ 18 - 1)
    (hev : (x / 2 ^ 51 % 2 ^ 6 + x / 2 ^ 62 % 2) % 2 = 0) :
    unlock_version x =
      x / 2 ^ 59 % 2 * 2 ^ 59 + x / 2 ^ 58 % 2 * 2 ^ 58 +
      (x / 2 ^ 51 % 2 ^ 6 + x / 2 ^ 62 % 2 + 1) * 2 ^ 51 +
      x / 2 ^ 16 % 2 ^ 16 * 2 ^ 16 + x / 2 ^ 8 % 2 ^ 8 * 2 ^ 8 := by
  rw [unlock_version_eq]
  have hS : (x / 2 ^ 33 % 2 ^ 18 + x / 2 ^ 61 % 2) * 2 ^ 33 = 2 ^ 51 := by
    rw [hsc, h61]
    norm_num
  rw [hS]
  obtain ⟨c, hc⟩ : ∃ c, x / 2 ^ 51 % 2 ^ 6 + x / 2 ^ 62 % 2 = 2 * c :=
    ⟨(x / 2 ^ 51 % 2 ^ 6 + x / 2 ^ 62 % 2) / 2, by omega⟩
  rw [hc]
  have h52 : (2 * c) * 2 ^ 51 = c * 2 ^ 52 := by ring
  rw [h52]
  rw [lor_disjoint 52 (c * 2 ^ 52) (2 ^ 51) (by omega) (by omega)]
  omega

/-- Arithmetic form of set_key_count. -/
theorem set_key_count_eq (x kc : Nat) :
    set_key_count x kc =
      x / 2 ^ 32 % 2 ^ 32 * 2 ^ 32 + kc % 256 * 2 ^ 16 + x % 2 ^ 16 := by
  have hmask : kPageVersionKeyCountMaskCompl =
      ((2 ^ 32 - 1) <<< 32) ||| (2 ^ 16 - 1) := by decide
  simp only [set_key_count, kPageVersionKeyCountShifts, hmask,
    Nat.and_or_distrib_left, Nat.shiftLeft_eq]
  rw [← Nat.shiftLeft_eq (2 ^ 32 - 1) 32, and_mask_eq x 32 32,
    Nat.and_pow_two_sub_one_eq_mod x 16]
  rw [Nat.or_assoc]
  rw [Nat.or_comm (x % 2 ^ 16) (kc % 256 * 2 ^ 16)]
  rw [lor_disjoint 16 (kc % 256 * 2 ^ 16) (x % 2 ^ 16) (by omega) (by omega)]
  rw [lor_disjoint 32 (x / 2 ^ 32 % 2 ^ 32 * 2 ^ 32)
    (kc % 256 * 2 ^ 16 + x % 2 ^ 16) (by omega) (by omega)]
  omega

/-- Arithmetic form of compose_thread_id. -/
theorem compose_thread_id_eq (node local_core : Nat) :
    compose_thread_id node local_core = node % 256 * 2 ^ 8 + local_core % 256 := by
  simp only [compose_thread_id, Nat.shiftLeft_eq]
  rw [lor_disjoint 8 (node % 256 * 2 ^ 8) (local_core % 256)
    (by omega) (by omega)]

/-- Arithmetic form of decompose_numa_node. -/
theorem decompose_numa_node_eq (global_id : Nat) :
    decompose_numa_node global_id = global_id % 65536 / 2 ^ 8 % 2 ^ 8 := by
  have h : (0xFF : Nat) = 2 ^ 8 - 1 := by decide
  simp only [decompose_numa_node, h, Nat.and_pow_two_sub_one_eq_mod,
    Nat.shiftRight_eq_div_pow]

/-- Arithmetic form of decompose_numa_local_ordinal. -/
theorem decompose_numa_local_ordinal_eq (global_id : Nat) :
    decompose_numa_local_ordinal global_id = global_id % 65536 % 2 ^ 8 := by
  have h : (0xFF : Nat) = 2 ^ 8 - 1 := by decide
  simp only [decompose_numa_local_ordinal, h, Nat.and_pow_two_sub_one_eq_mod]

/-- Bits of bit-disjoint values do not meet. -/
theorem and_eq_zero_of_disjoint (k a b : Nat) (ha : a % 2 ^ k = 0)
    (hb : b < 2 ^ k) : a &&& b = 0 := by
  obtain ⟨c, hc⟩ : ∃ c, a = 2 ^ k * c :=
    ⟨a / 2 ^ k, (Nat.mul_div_cancel' (Nat.dvd_of_mod_eq_zero ha)).symm⟩
  subst hc
  apply Nat.eq_of_testBit_eq
  intro i
  simp only [Nat.testBit_and, Nat.zero_testBit]
  by_cases h : k ≤ i
  · have hbf : b.testBit i = false :=
      Nat.testBit_lt_two_pow
        (lt_of_lt_of_le hb (Nat.pow_le_pow_right (by omega) h))
    simp [hbf]
  · have haf : (2 ^ k * c).testBit i = false := by
      rw [Nat.mul_comm, ← Nat.shiftLeft_eq]
      simp [Nat.testBit_shiftLeft, h]
    simp [haf]

/-- Arithmetic form of the ASSERT_ND condition inside unlock_version. -/
theorem unlock_version_check_eq (x : Nat) :
    unlock_version_check x =
      (((x / 2 ^ 51 % 2 ^ 6 + x / 2 ^ 62 % 2) * 2 ^ 51 &&&
        (x / 2 ^ 33 % 2 ^ 18 + x / 2 ^ 61 % 2) * 2 ^ 33) == 0) := by
  simp only [unlock_version_check, kPageVersionInsertingBit,
    kPageVersionSplittingBit, kPageVersionInsertionCounterShifts,
    kPageVersionSplitCounterShifts, insertion_counter_mask_shl,
    split_counter_mask_shl, and_mask_eq, and_bit_ne, decide_eq_true_eq]
  simp only [Nat.shiftLeft_eq, Nat.one_mul]
  rw [ite_bump (x / 2 ^ 62 % 2) (by omega) (x / 2 ^ 51 % 2 ^ 6 * 2 ^ 51)
    (2 ^ 51)]
  rw [ite_bump (x / 2 ^ 61 % 2) (by omega) (x / 2 ^ 33 % 2 ^ 18 * 2 ^ 33)
    (2 ^ 33)]
  have hIeq : x / 2 ^ 51 % 2 ^ 6 * 2 ^ 51 + x / 2 ^ 62 % 2 * 2 ^ 51 =
      (x / 2 ^ 51 % 2 ^ 6 + x / 2 ^ 62 % 2) * 2 ^ 51 := by ring
  have hSeq : x / 2 ^ 33 % 2 ^ 18 * 2 ^ 33 + x / 2 ^ 61 % 2 * 2 ^ 33 =
      (x / 2 ^ 33 % 2 ^ 18 + x / 2 ^ 61 % 2) * 2 ^ 33 := by ring
  rw [hIeq, hSeq]

/-- Getters of a word given as a sum of in-range fields: the shape produced
by unlock_version when the split counter does not wrap.  ii is the bumped
insertion counter word (64 exactly when the insertion counter wrapped, which
puts the carry on bit 57). -/
theorem unlock_sum_getters (w a59 a58 ii ss k l : Nat)
    (hw : w = a59 * 2 ^ 59 + a58 * 2 ^ 58 + ii * 2 ^ 51 + ss * 2 ^ 33 +
      k * 2 ^ 16 + l * 2 ^ 8)
    (h59 : a59 < 2) (h58 : a58 < 2) (hii : ii ≤ 64) (hss : ss < 2 ^ 18)
    (hk : k < 2 ^ 16) (hl : l < 2 ^ 8) :
    is_locked w = false ∧
    is_inserting w = false ∧
    is_splitting w = false ∧
    has_foster_child w = decide (a59 = 1) ∧
    is_border w = decide (a58 = 1) ∧
    is_high_fence_supremum w = decide (ii = 64) ∧
    get_insert_counter w = ii % 64 ∧
    get_split_counter w = ss ∧
    get_key_count w = k ∧
    get_layer w = l := by
  subst hw
  refine ⟨?_, ?_, ?_, ?_, ?_, ?_, ?_, ?_, ?_, ?_⟩
  · rw [is_locked_eq]
    simp only [decide_eq_false_iff_not]
    omega
  · rw [is_inserting_eq]
    simp only [decide_eq_false_iff_not]
    omega
  · rw [is_splitting_eq]
    simp only [decide_eq_false_iff_not]
    omega
  · rw [has_foster_child_eq]
    simp only [decide_eq_decide]
    omega
  · rw [is_border_eq]
    simp only [decide_eq_decide]
    omega
  · rw [is_high_fence_supremum_eq]
    simp only [decide_eq_decide]
    omega
  · rw [get_insert_counter_eq]
    omega
  · rw [get_split_counter_eq]
    omega
  · rw [get_key_count_eq]
    omega
  · rw [get_layer_eq]
    omega

/-- C1, counterexample: on the locked word with splitting set and the split
counter at its maximum 262143, unlock_version bumps the READ insertion
counter from 0 to 1 although the inserting bit was not set: the split
counter's carry lands in the insertion-counter field.  This falsifies
"the insertion counter is bumped by 1 exactly when the inserting bit was
set". -/
theorem c1_split_carry_bumps_insert_counter :
    is_locked 0xA007FFFE00000000 = true ∧
    is_inserting 0xA007FFFE00000000 = false ∧
    get_insert_counter 0xA007FFFE00000000 = 0 ∧
    get_insert_counter (unlock_version 0xA007FFFE00000000) = 1 := by decide

/-- C1, amended: for every locked PageVersion word whose split counter is not
at its maximum while splitting is set, unlock_version stores a word with
locked=0, inserting=0, splitting=0, preserves has_foster_child, is_border,
key_count and layer, bumps the insertion counter by 1 modulo its 6-bit field
exactly when inserting was set, and bumps the split counter by 1 exactly when
splitting was set. -/
theorem c1_unlock_version_contract (x : Nat) (hx : x < 2 ^ 64)
    (hl : is_locked x = true)
    (hw : is_splitting x = true → get_split_counter x ≠ 262143) :
    is_locked (unlock_version x) = false ∧
    is_inserting (unlock_version x) = false ∧
    is_splitting (unlock_version x) = false ∧
    has_foster_child (unlock_version x) = has_foster_child x ∧
    is_border (unlock_version x) = is_border x ∧
    get_key_count (unlock_version x) = get_key_count x ∧
    get_layer (unlock_version x) = get_layer x ∧
    get_insert_counter (unlock_version x) =
      (get_insert_counter x + (if is_inserting x then 1 else 0)) % 64 ∧
    get_split_counter (unlock_version x) =
      get_split_counter x + (if is_splitting x then 1 else 0) := by
  have hw' : x / 2 ^ 61 % 2 = 1 → x / 2 ^ 33 % 2 ^ 18 ≠ 2 ^ 18 - 1 := by
    intro h61
    have hs : is_splitting x = true := by
      rw [is_splitting_eq]
      simpa using h61
    have := hw hs
    rw [get_split_counter_eq] at this
    omega
  have hss : x / 2 ^ 33 % 2 ^ 18 + x / 2 ^ 61 % 2 < 2 ^ 18 := by
    by_cases h61 : x / 2 ^ 61 % 2 = 1
    · have := hw' h61
      omega
    · omega
  obtain ⟨g1, g2, g3, g4, g5, g6, g7, g8, g9, g10⟩ :=
    unlock_sum_getters (unlock_version x) (x / 2 ^ 59 % 2) (x / 2 ^ 58 % 2)
      (x / 2 ^ 51 % 2 ^ 6 + x / 2 ^ 62 % 2)
      (x / 2 ^ 33 % 2 ^ 18 + x / 2 ^ 61 % 2)
      (x / 2 ^ 16 % 2 ^ 16) (x / 2 ^ 8 % 2 ^ 8)
      (unlock_version_eq_no_split_wrap x hw')
      (by omega) (by omega) (by omega) hss (by omega) (by omega)
  refine ⟨g1, g2, g3, ?_, ?_, ?_, ?_, ?_, ?_⟩
  · rw [g4, has_foster_child_eq]
  · rw [g5, is_border_eq]
  · rw [g9, get_key_count_eq]
    omega
  · rw [g10, get_layer_eq]
    omega
  · rw [g7]
    simp only [get_insert_counter_eq, is_inserting_eq, decide_eq_true_eq]
    by_cases h62 : x / 2 ^ 62 % 2 = 1 <;> simp only [h62, if_pos, if_neg,
      if_true, if_false] <;> omega
  · rw [g8]
    simp only [get_split_counter_eq, is_splitting_eq, decide_eq_true_eq]
    by_cases h61 : x / 2 ^ 61 % 2 = 1 <;> simp only [h61, if_pos, if_neg,
      if_true, if_false] <;> omega

/-- C1 witness at the locked+inserting word. -/
theorem c1_unlock_version_contract_witness :
    is_locked 0xC000000000000000 = true ∧
    get_insert_counter (unlock_version 0xC000000000000000) =
      (get_insert_counter 0xC000000000000000 +
        (if is_inserting 0xC000000000000000 then 1 else 0)) % 64 :=
  ⟨by decide,
    (c1_unlock_version_contract 0xC000000000000000 (by decide) (by decide)
      (by decide)).2.2.2.2.2.2.2.1⟩

/-- C2: the code drops the is_high_fence_supremum flag on unlock.  On the
locked word with bit 57 set (and nothing else), unlock_version stores a word
whose bit 57 is clear, because kPageVersionUnlockMask omits
kPageVersionIsSupremumBit.  The claim (and the spec's immutable-after-init
table) says the flag is preserved by every operation including unlock. -/
theorem c2_unlock_version_drops_supremum :
    is_locked 0x8200000000000000 = true ∧
    is_high_fence_supremum 0x8200000000000000 = true ∧
    is_high_fence_supremum (unlock_version 0x8200000000000000) = false := by
  decide

/-- C3, counterexample: on the locked word with BOTH inserting and splitting
set (counters 0), unlock_version bumps both counters from 0 to 1 in a single
call, and the assertion (insertion_counter & split_counter) == 0 nevertheless
passes.  This falsifies "at most one of the two counters changes" and shows
the assertion does not make inserting and splitting mutually exclusive. -/
theorem c3_both_counters_bump :
    is_locked 0xE000000000000000 = true ∧
    is_inserting 0xE000000000000000 = true ∧
    is_splitting 0xE000000000000000 = true ∧
    get_insert_counter 0xE000000000000000 = 0 ∧
    get_split_counter 0xE000000000000000 = 0 ∧
    get_insert_counter (unlock_version 0xE000000000000000) = 1 ∧
    get_split_counter (unlock_version 0xE000000000000000) = 1 ∧
    unlock_version_check 0xE000000000000000 = true := by decide

/-- C3, amended: when both inserting and splitting were set in the same
critical section (and neither counter is at its wrap point), a single
unlock_version bumps BOTH counters by 1, and the assertion passes: it only
checks that the two bumped counter words occupy disjoint bits, it does not
enforce mutual exclusion of inserting and splitting. -/
theorem c3_unlock_version_double_bump (x : Nat) (hx : x < 2 ^ 64)
    (hl : is_locked x = true) (hi : is_inserting x = true)
    (hs : is_splitting x = true)
    (hic : get_insert_counter x < 63) (hsc : get_split_counter x < 262143) :
    get_insert_counter (unlock_version x) = get_insert_counter x + 1 ∧
    get_split_counter (unlock_version x) = get_split_counter x + 1 ∧
    unlock_version_check x = true := by
  rw [is_inserting_eq] at hi
  rw [is_splitting_eq] at hs
  simp only [decide_eq_true_eq] at hi hs
  rw [get_insert_counter_eq] at hic
  rw [get_split_counter_eq] at hsc
  have hw : x / 2 ^ 61 % 2 = 1 → x / 2 ^ 33 % 2 ^ 18 ≠ 2 ^ 18 - 1 := by
    intro _
    omega
  obtain ⟨g1, g2, g3, g4, g5, g6, g7, g8, g9, g10⟩ :=
    unlock_sum_getters (unlock_version x) (x / 2 ^ 59 % 2) (x / 2 ^ 58 % 2)
      (x / 2 ^ 51 % 2 ^ 6 + x / 2 ^ 62 % 2)
      (x / 2 ^ 33 % 2 ^ 18 + x / 2 ^ 61 % 2)
      (x / 2 ^ 16 % 2 ^ 16) (x / 2 ^ 8 % 2 ^ 8)
      (unlock_version_eq_no_split_wrap x hw)
      (by omega) (by omega) (by omega) (by omega) (by omega) (by omega)
  refine ⟨?_, ?_, ?_⟩
  · rw [g7, get_insert_counter_eq]
    omega
  · rw [g8, get_split_counter_eq]
    omega
  · rw [unlock_version_check_eq]
    simp only [beq_iff_eq]
    exact and_eq_zero_of_disjoint 51 _ _ (by omega) (by omega)

/-- C3 witness at the locked word with both bits set and counters 0. -/
theorem c3_unlock_version_double_bump_witness :
    is_inserting 0xE0000001FE000000 = true ∧
    get_insert_counter (unlock_version 0xE0000001FE000000) =
      get_insert_counter 0xE0000001FE000000 + 1 :=
  ⟨by decide,
    (c3_unlock_version_double_bump 0xE0000001FE000000 (by decide) (by decide)
      (by decide) (by decide) (by decide) (by decide)).1⟩

/-- C4, counterexample: on the locked word with inserting set and the
insertion counter at its maximum 63, unlock_version wraps the counter field
to 0 but the carry sets bit 57 (is_high_fence_supremum), a bit outside the
insertion-counter field.  This falsifies "wraps to 0 without altering any
bit outside the insertion-counter field". -/
theorem c4_insert_wrap_sets_supremum_bit :
    get_insert_counter 0xC1F8000000000000 = 63 ∧
    is_high_fence_supremum 0xC1F8000000000000 = false ∧
    get_insert_counter (unlock_version 0xC1F8000000000000) = 0 ∧
    is_high_fence_supremum (unlock_version 0xC1F8000000000000) = true := by
  decide

/-- C4, amended: for every locked word, (a) when inserting is set and the
insertion counter is 63 (and the split counter does not also wrap), the
counter field reads 0 after unlock but the carry sets bit 57
(is_high_fence_supremum); (b) when splitting is set with the split counter at
its maximum 262143 (inserting clear, insertion counter even), the split field
reads 0 after unlock and the carry lands on bit 51, incrementing the read
insertion counter.  Neither wrap is confined to its own field. -/
theorem c4_unlock_version_wrap_carries (x : Nat) (hx : x < 2 ^ 64)
    (hl : is_locked x = true) :
    (is_inserting x = true → get_insert_counter x = 63 →
      (is_splitting x = true → get_split_counter x ≠ 262143) →
      get_insert_counter (unlock_version x) = 0 ∧
      is_high_fence_supremum (unlock_version x) = true) ∧
    (is_splitting x = true → get_split_counter x = 262143 →
      is_inserting x = false → get_insert_counter x % 2 = 0 →
      get_split_counter (unlock_version x) = 0 ∧
      get_insert_counter (unlock_version x) = get_insert_counter x + 1) := by
  constructor
  · intro hi h63 hw
    rw [is_inserting_eq] at hi
    simp only [decide_eq_true_eq] at hi
    rw [get_insert_counter_eq] at h63
    have hw' : x / 2 ^ 61 % 2 = 1 → x / 2 ^ 33 % 2 ^ 18 ≠ 2 ^ 18 - 1 := by
      intro h61
      have hs : is_splitting x = true := by
        rw [is_splitting_eq]
        simpa using h61
      have := hw hs
      rw [get_split_counter_eq] at this
      omega
    have hss : x / 2 ^ 33 % 2 ^ 18 + x / 2 ^ 61 % 2 < 2 ^ 18 := by
      by_cases h61 : x / 2 ^ 61 % 2 = 1
      · have := hw' h61
        omega
      · omega
    obtain ⟨g1, g2, g3, g4, g5, g6, g7, g8, g9, g10⟩ :=
      unlock_sum_getters (unlock_version x) (x / 2 ^ 59 % 2) (x / 2 ^ 58 % 2)
        (x / 2 ^ 51 % 2 ^ 6 + x / 2 ^ 62 % 2)
        (x / 2 ^ 33 % 2 ^ 18 + x / 2 ^ 61 % 2)
        (x / 2 ^ 16 % 2 ^ 16) (x / 2 ^ 8 % 2 ^ 8)
        (unlock_version_eq_no_split_wrap x hw')
        (by omega) (by omega) (by omega) hss (by omega) (by omega)
    refine ⟨?_, ?_⟩
    · rw [g7]
      omega
    · rw [g6]
      simp only [decide_eq_true_eq]
      omega
  · intro hs h262143 hni hev
    rw [is_splitting_eq] at hs
    simp only [decide_eq_true_eq] at hs
    rw [get_split_counter_eq] at h262143
    rw [is_inserting_eq] at hni
    simp only [decide_eq_false_iff_not] at hni
    rw [get_insert_counter_eq] at hev
    have hsum : unlock_version x =
        x / 2 ^ 59 % 2 * 2 ^ 59 + x / 2 ^ 58 % 2 * 2 ^ 58 +
        (x / 2 ^ 51 % 2 ^ 6 + x / 2 ^ 62 % 2 + 1) * 2 ^ 51 + 0 * 2 ^ 33 +
        x / 2 ^ 16 % 2 ^ 16 * 2 ^ 16 + x / 2 ^ 8 % 2 ^ 8 * 2 ^ 8 := by
      rw [unlock_version_eq_split_wrap x hs (by omega) (by omega)]
      ring
    obtain ⟨g1, g2, g3, g4, g5, g6, g7, g8, g9, g10⟩ :=
      unlock_sum_getters (unlock_version x) (x / 2 ^ 59 % 2) (x / 2 ^ 58 % 2)
        (x / 2 ^ 51 % 2 ^ 6 + x / 2 ^ 62 % 2 + 1) 0
        (x / 2 ^ 16 % 2 ^ 16) (x / 2 ^ 8 % 2 ^ 8)
        hsum (by omega) (by omega) (by omega) (by omega) (by omega) (by omega)
    refine ⟨?_, ?_⟩
    · rw [g8]
    · rw [g7, get_insert_counter_eq]
      omega

/-- C4 witness at the locked+inserting word with insertion counter 63. -/
theorem c4_unlock_version_wrap_carries_witness :
    is_locked 0xC1F8000000000000 = true ∧
    (get_insert_counter (unlock_version 0xC1F8000000000000) = 0 ∧
      is_high_fence_supremum (unlock_version 0xC1F8000000000000) = true) :=
  ⟨by decide,
    (c4_unlock_version_wrap_carries 0xC1F8000000000000 (by decide)
      (by decide)).1 (by decide) (by decide) (by decide)⟩

/-- A decide of a 0-or-1 arithmetic value against 1 equals the Bool it came
from. -/
theorem decide_toNat_eq (b : Bool) (n : Nat) (hn : n ≤ 1)
    (h : n = b.toNat) : decide (n = 1) = b := by
  cases b <;> simp_all

/-- C5: initialize followed by the getters returns exactly the given field
values with all counters and the key count 0, and more generally a word
constructed from any in-range field assignment under the documented bit
layout reads back through the getters as exactly those values. -/
theorem c5_version_layout_roundtrip (locked inserting splitting deleted
    has_foster has_border has_supremum : Bool) (layer ic sc kc : Nat)
    (hly : layer < 256) (hic : ic < 64) (hsc : sc < 262144)
    (hkc : kc < 65536) :
    (is_locked (initialize_version locked has_foster has_border has_supremum
        layer) = locked ∧
      has_foster_child (initialize_version locked has_foster has_border
        has_supremum layer) = has_foster ∧
      is_border (initialize_version locked has_foster has_border has_supremum
        layer) = has_border ∧
      is_high_fence_supremum (initialize_version locked has_foster has_border
        has_supremum layer) = has_supremum ∧
      get_layer (initialize_version locked has_foster has_border has_supremum
        layer) = layer ∧
      get_insert_counter (initialize_version locked has_foster has_border
        has_supremum layer) = 0 ∧
      get_split_counter (initialize_version locked has_foster has_border
        has_supremum layer) = 0 ∧
      get_key_count (initialize_version locked has_foster has_border
        has_supremum layer) = 0) ∧
    (is_locked (page_version_word locked inserting splitting deleted
        has_foster has_border has_supremum ic sc kc layer) = locked ∧
      is_inserting (page_version_word locked inserting splitting deleted
        has_foster has_border has_supremum ic sc kc layer) = inserting ∧
      is_splitting (page_version_word locked inserting splitting deleted
        has_foster has_border has_supremum ic sc kc layer) = splitting ∧
      is_deleted (page_version_word locked inserting splitting deleted
        has_foster has_border has_supremum ic sc kc layer) = deleted ∧
      has_foster_child (page_version_word locked inserting splitting deleted
        has_foster has_border has_supremum ic sc kc layer) = has_foster ∧
      is_border (page_version_word locked inserting splitting deleted
        has_foster has_border has_supremum ic sc kc layer) = has_border ∧
      is_high_fence_supremum (page_version_word locked inserting splitting
        deleted has_foster has_border has_supremum ic sc kc layer) =
        has_supremum ∧
      get_insert_counter (page_version_word locked inserting splitting deleted
        has_foster has_border has_supremum ic sc kc layer) = ic ∧
      get_split_counter (page_version_word locked inserting splitting deleted
        has_foster has_border has_supremum ic sc kc layer) = sc ∧
      get_key_count (page_version_word locked inserting splitting deleted
        has_foster has_border has_supremum ic sc kc layer) = kc ∧
      get_layer (page_version_word locked inserting splitting deleted
        has_foster has_border has_supremum ic sc kc layer) = layer) := by
  have hb1 := toNat_le_one locked
  have hb2 := toNat_le_one inserting
  have hb3 := toNat_le_one splitting
  have hb4 := toNat_le_one deleted
  have hb5 := toNat_le_one has_foster
  have hb6 := toNat_le_one has_border
  have hb7 := toNat_le_one has_supremum
  rw [initialize_version_eq, page_version_word_eq]
  refine ⟨⟨?_, ?_, ?_, ?_, ?_, ?_, ?_, ?_⟩,
    ?_, ?_, ?_, ?_, ?_, ?_, ?_, ?_, ?_, ?_, ?_⟩
  · rw [is_locked_eq]
    exact decide_toNat_eq _ _ (by omega) (by omega)
  · rw [has_foster_child_eq]
    exact decide_toNat_eq _ _ (by omega) (by omega)
  · rw [is_border_eq]
    exact decide_toNat_eq _ _ (by omega) (by omega)
  · rw [is_high_fence_supremum_eq]
    exact decide_toNat_eq _ _ (by omega) (by omega)
  · rw [get_layer_eq]
    omega
  · rw [get_insert_counter_eq]
    omega
  · rw [get_split_counter_eq]
    omega
  · rw [get_key_count_eq]
    omega
  · rw [is_locked_eq]
    exact decide_toNat_eq _ _ (by omega) (by omega)
  · rw [is_inserting_eq]
    exact decide_toNat_eq _ _ (by omega) (by omega)
  · rw [is_splitting_eq]
    exact decide_toNat_eq _ _ (by omega) (by omega)
  · rw [is_deleted_eq]
    exact decide_toNat_eq _ _ (by omega) (by omega)
  · rw [has_foster_child_eq]
    exact decide_toNat_eq _ _ (by omega) (by omega)
  · rw [is_border_eq]
    exact decide_toNat_eq _ _ (by omega) (by omega)
  · rw [is_high_fence_supremum_eq]
    exact decide_toNat_eq _ _ (by omega) (by omega)
  · rw [get_insert_counter_eq]
    omega
  · rw [get_split_counter_eq]
    omega
  · rw [get_key_count_eq]
    omega
  · rw [get_layer_eq]
    omega

/-- C5 witness at a concrete full field assignment. -/
theorem c5_version_layout_roundtrip_witness :
    (5 : Nat) < 256 ∧
    is_locked (initialize_version true true false true 5) = true :=
  ⟨by decide,
    (c5_version_layout_roundtrip true false true false true false true
      5 63 262143 65535 (by decide) (by decide) (by decide) (by decide)).1.1⟩

/-- C6: whatever word stable_version returns satisfies the loop's exit test:
neither the inserting bit nor the splitting bit is set. -/
theorem c6_stable_version_quiescent (observed : List Nat) (v : Nat)
    (h : stable_version observed = some v) :
    is_inserting v = false ∧ is_splitting v = false := by
  have hp := List.find?_some h
  simp only [beq_iff_eq] at hp
  have hmask : kPageVersionInsertingBit ||| kPageVersionSplittingBit =
      (2 ^ 2 - 1) <<< 61 := by decide
  rw [hmask, and_mask_eq] at hp
  simp only [is_inserting_eq, is_splitting_eq, decide_eq_false_iff_not]
  omega

/-- C6 witness: two observations, the first still splitting, the second
quiescent. -/
theorem c6_stable_version_quiescent_witness :
    stable_version [0xE000000000000000, 0x8000000000000000] =
      some 0x8000000000000000 ∧
    is_inserting 0x8000000000000000 = false ∧
    is_splitting 0x8000000000000000 = false :=
  ⟨by decide,
    c6_stable_version_quiescent [0xE000000000000000, 0x8000000000000000]
      0x8000000000000000 (by decide)⟩

/-- C7: the factory rejects a metadata of the wrong dynamic type with
kErrorCodeStrWrongMetadataType (the spec taxonomy's StorageWrongMetadataType),
rejects an ArrayMetadata whose payload_size or array_size is 0 with
kErrorCodeStrArrayInvalidOption (the taxonomy's StorageInvalidOption), and
succeeds on every ArrayMetadata with positive payload_size and array_size,
producing the storage. -/
theorem c7_array_factory_validation (id payload_size array_size : Nat) :
    (payload_size = 0 →
      get_instance (Metadata.arrayMetadata id payload_size array_size) =
        FactoryResult.errorStack FactoryError.kErrorCodeStrArrayInvalidOption) ∧
    (array_size = 0 →
      get_instance (Metadata.arrayMetadata id payload_size array_size) =
        FactoryResult.errorStack FactoryError.kErrorCodeStrArrayInvalidOption) ∧
    get_instance Metadata.otherMetadata =
      FactoryResult.errorStack FactoryError.kErrorCodeStrWrongMetadataType ∧
    (0 < payload_size → 0 < array_size →
      get_instance (Metadata.arrayMetadata id payload_size array_size) =
        FactoryResult.ok ⟨id, payload_size, array_size⟩) := by
  refine ⟨?_, ?_, rfl, ?_⟩
  · intro h
    simp [get_instance, h]
  · intro h
    by_cases hp : payload_size = 0 <;> simp [get_instance, h, hp]
  · intro h1 h2
    have hp : payload_size ≠ 0 := by omega
    have ha : array_size ≠ 0 := by omega
    simp [get_instance, hp, ha]

/-- C7 witness: a zero payload is rejected, a valid metadata is accepted. -/
theorem c7_array_factory_validation_witness :
    get_instance (Metadata.arrayMetadata 1 0 1024) =
      FactoryResult.errorStack FactoryError.kErrorCodeStrArrayInvalidOption ∧
    get_instance (Metadata.arrayMetadata 1 16 1024) =
      FactoryResult.ok ⟨1, 16, 1024⟩ :=
  ⟨(c7_array_factory_validation 1 0 1024).1 rfl,
    (c7_array_factory_validation 1 16 1024).2.2.2 (by decide) (by decide)⟩

/-- C8: composing a NUMA group and a local ordinal and decomposing again is
the identity on [0,255] x [0,255], and compose(3, 17) = 0x0311. -/
theorem c8_thread_id_roundtrip (g l : Nat) (hg : g < 256) (hl : l < 256) :
    decompose_numa_node (compose_thread_id g l) = g ∧
    decompose_numa_local_ordinal (compose_thread_id g l) = l ∧
    compose_thread_id 3 17 = 0x0311 := by
  rw [compose_thread_id_eq, decompose_numa_node_eq,
    decompose_numa_local_ordinal_eq]
  refine ⟨by omega, by omega, by decide⟩

/-- C8 witness at (3, 17). -/
theorem c8_thread_id_roundtrip_witness :
    (3 : Nat) < 256 ∧ decompose_numa_node (compose_thread_id 3 17) = 3 :=
  ⟨by decide, (c8_thread_id_roundtrip 3 17 (by decide) (by decide)).1⟩

/-- C9: every FixedString operation keeps length at most the compile-time
capacity MAXLEN: the default constructor and clear produce length 0, and each
assign overload sets length to min(input length, MAXLEN) and defines exactly
that many characters.  (hinv is the structural invariant of the source
FixedString: the defined content of `other` has its recorded length; hlen
says the caller of assign(ptr, len) passes len valid characters.) -/
theorem c9_fixed_string_length_bounded (CHAR : Type) (M M2 : Nat)
    (fs : FixedString M CHAR) (other : FixedString M2 CHAR)
    (str str2 : List CHAR) (len : Nat)
    (hinv : other.data_.length = other.length_) (hlen : len ≤ str2.length) :
    (fixed_empty M CHAR).length_ = 0 ∧
    (fixed_clear fs).length_ = 0 ∧
    (fixed_assign_str M str).length_ = min str.length M ∧
    (fixed_assign_str M str).length_ ≤ M ∧
    (fixed_assign_str M str).data_.length = (fixed_assign_str M str).length_ ∧
    (fixed_assign_fs M other).length_ = min other.length_ M ∧
    (fixed_assign_fs M other).length_ ≤ M ∧
    (fixed_assign_fs M other).data_.length = (fixed_assign_fs M other).length_ ∧
    (fixed_assign_cstr M str2 len).length_ = min len M ∧
    (fixed_assign_cstr M str2 len).length_ ≤ M ∧
    (fixed_assign_cstr M str2 len).data_.length =
      (fixed_assign_cstr M str2 len).length_ := by
  refine ⟨rfl, rfl, ?_, ?_, ?_, ?_, ?_, ?_, ?_, ?_, ?_⟩ <;>
    simp only [fixed_assign_str, fixed_assign_fs, fixed_assign_cstr,
      List.length_take] <;>
    split <;> omega

/-- C9 witness on concrete strings. -/
theorem c9_fixed_string_length_bounded_witness :
    ([9, 9] : List Nat).length = 2 ∧
    (fixed_assign_str 2 [(1 : Nat), 2, 3]).length_ = min 3 2 :=
  ⟨by decide,
    (c9_fixed_string_length_bounded Nat 2 3 ⟨0, []⟩ ⟨2, [9, 9]⟩ [1, 2, 3]
      [4, 5] 1 (by decide) (by decide)).2.2.1⟩

/-- C10: set_key_count takes a uint8_t although the field is 16 bits wide:
for every locked word and n < 256 it installs exactly n as the key count,
leaves every other field unchanged, and can never install a key count above
255 regardless of its argument. -/
theorem c10_set_key_count_contract (x n : Nat) (hx : x < 2 ^ 64)
    (hl : is_locked x = true) (hn : n < 256) :
    get_key_count (set_key_count x n) = n ∧
    is_locked (set_key_count x n) = is_locked x ∧
    is_inserting (set_key_count x n) = is_inserting x ∧
    is_splitting (set_key_count x n) = is_splitting x ∧
    is_deleted (set_key_count x n) = is_deleted x ∧
    has_foster_child (set_key_count x n) = has_foster_child x ∧
    is_border (set_key_count x n) = is_border x ∧
    is_high_fence_supremum (set_key_count x n) = is_high_fence_supremum x ∧
    get_insert_counter (set_key_count x n) = get_insert_counter x ∧
    get_split_counter (set_key_count x n) = get_split_counter x ∧
    get_layer (set_key_count x n) = get_layer x ∧
    (∀ m, get_key_count (set_key_count x m) < 256) := by
  rw [set_key_count_eq]
  refine ⟨?_, ?_, ?_, ?_, ?_, ?_, ?_, ?_, ?_, ?_, ?_, ?_⟩
  · rw [get_key_count_eq]
    omega
  · simp only [is_locked_eq, decide_eq_decide]
    omega
  · simp only [is_inserting_eq, decide_eq_decide]
    omega
  · simp only [is_splitting_eq, decide_eq_decide]
    omega
  · simp only [is_deleted_eq, decide_eq_decide]
    omega
  · simp only [has_foster_child_eq, decide_eq_decide]
    omega
  · simp only [is_border_eq, decide_eq_decide]
    omega
  · simp only [is_high_fence_supremum_eq, decide_eq_decide]
    omega
  · simp only [get_insert_counter_eq]
    omega
  · simp only [get_split_counter_eq]
    omega
  · simp only [get_layer_eq]
    omega
  · intro m
    rw [set_key_count_eq, get_key_count_eq]
    omega

/-- C10 witness on a locked word with all-ones key count and n = 7. -/
theorem c10_set_key_count_contract_witness :
    is_locked 0x80000000FFFF0000 = true ∧
    get_key_count (set_key_count 0x80000000FFFF0000 7) = 7 :=
  ⟨by decide,
    (c10_set_key_count_contract 0x80000000FFFF0000 7 (by decide) (by decide)
      (by decide)).1⟩
